import Mathlib

/-!
# Verification of the AWNet architecture sources

A shallow embedding of `models/model_3channel.py` and
`models/modules_4channel.py`.

Tensors are embedded symbolically: `T` is the type of tensor expressions,
with one constructor per tensor operator that the sources apply
(convolution, batch/layer norm, activations, concatenation along the
channel dimension, broadcasting add/mul, batched matmul, adaptive average
pooling, pixel shuffle, bilinear upsampling, the wavelet transforms, and
the reshapes used by `ContextBlock2d.spatial_pool`).  Each `forward`
method of the sources becomes a Lean function building a `T` expression,
translated line by line from the Python.

On top of the symbolic layer, `shapeOf` evaluates the shape of an
expression (shapes are `List Nat`, e.g. `[n, c, h, w]`), returning `none`
exactly where the host tensor framework would raise a shape/size error
(channel mismatch in a convolution, concatenation of incompatible shapes,
non-broadcastable elementwise ops, and so on).

Modules carry their hyper-parameters in structures named after the Python
classes; `__init__` becomes an `init` function computing those
hyper-parameters from the constructor arguments.
-/

namespace AWNetISP

/-- Hyper-parameters of a `nn.Conv2d` as used in the sources: input
channels, output channels, (square) kernel size, stride and padding.
The bias flag is omitted: it never affects shapes or the operator
composition stated by the spec. -/
structure Conv2dCfg where
  in_ch : Nat
  out_ch : Nat
  k : Nat
  s : Nat
  p : Nat
deriving DecidableEq, Repr

/-- Symbolic tensor expressions: one constructor per tensor operator
applied somewhere in the two source files.  `input s` is a free input
tensor of shape `s`.  `cat1` is `torch.cat(·, dim=1)` (n-ary `cat` in the
sources is modelled as nested binary `cat1`, which has the same shape
behaviour).  `view_flat_hw`, `view_1_flat_hw`, `unsqueeze` and `view_c11`
are the exact reshapes performed by `ContextBlock2d.spatial_pool`
(`x.view(b, c, h*w)`, `mask.view(b, 1, h*w)`, `unsqueeze(d)`,
`context.view(b, c, 1, 1)`).  `upsample_like target x` is
`F.upsample(x, size=(h, w), mode='bilinear')` where `(h, w)` are the
spatial dimensions of `target`. -/
inductive T : Type
  | input : List Nat → T
  | conv2d : Conv2dCfg → T → T
  | batchNorm2d : Nat → T → T
  | layerNorm : List Nat → T → T
  | prelu : T → T
  | relu : T → T
  | sigmoid : T → T
  | softmaxDim : Nat → T → T
  | cat1 : T → T → T
  | add : T → T → T
  | mul : T → T → T
  | matmul4 : T → T → T
  | adaptiveAvgPool2d : Nat → Nat → T → T
  | pixelShuffle : Nat → T → T
  | upsample_like : T → T → T
  | dwt_ll : T → T
  | dwt_high : T → T
  | iwt_op : T → T
  | view_flat_hw : T → T
  | view_1_flat_hw : T → T
  | unsqueeze : Nat → T → T
  | view_c11 : T → T
deriving DecidableEq

/-- Tensor shapes, outermost dimension first (`[n, c, h, w]` for the 4-D
tensors that dominate the sources; the `view` reshapes produce 3-D
shapes). -/
abbrev Shape := List Nat

/-- Output spatial size of a convolution along one dimension:
`floor((h + 2p - k) / s) + 1`, defined when the kernel fits
(`k ≤ h + 2p`) and the stride is positive. -/
def convOutDim (h k s p : Nat) : Option Nat :=
  if 1 ≤ s ∧ k ≤ h + 2 * p then some ((h + 2 * p - k) / s + 1) else none

/-- Shape rule of `nn.Conv2d`: the input must be 4-D with channel count
equal to the configured input channels. -/
def conv2dShape (cfg : Conv2dCfg) : Shape → Option Shape
  | [n, c, h, w] =>
    if c = cfg.in_ch then
      match convOutDim h cfg.k cfg.s cfg.p, convOutDim w cfg.k cfg.s cfg.p with
      | some oh, some ow => some [n, cfg.out_ch, oh, ow]
      | _, _ => none
    else none
  | _ => none

/-- Shape rule of `nn.BatchNorm2d ch`: 4-D input with `ch` channels,
shape preserved. -/
def batchNorm2dShape (ch : Nat) : Shape → Option Shape
  | [n, c, h, w] => if c = ch then some [n, c, h, w] else none
  | _ => none

/-- Shape rule of `nn.LayerNorm dims`: the normalized dimensions must be
a suffix of the input shape; shape preserved. -/
def layerNormShape (dims : List Nat) (s : Shape) : Option Shape :=
  if dims <:+ s then some s else none

/-- Broadcasting of two equal-rank shapes (the only elementwise pattern
the sources use: identical shapes, or a `[n, c, 1, 1]` term against a
`[n, c, h, w]` tensor). -/
def bcastDims : Shape → Shape → Option Shape
  | [], [] => some []
  | a :: as_, b :: bs =>
    (bcastDims as_ bs).bind fun r =>
      if a = b then some (a :: r)
      else if a = 1 then some (b :: r)
      else if b = 1 then some (a :: r)
      else none
  | _, _ => none

/-- Shape rule of `torch.cat(·, dim=1)`: same rank ≥ 2, all dimensions
except the channel dimension equal; channel counts add. -/
def cat1Shape : Shape → Shape → Option Shape
  | n1 :: c1 :: r1, n2 :: c2 :: r2 =>
    if n1 = n2 ∧ r1 = r2 then some (n1 :: (c1 + c2) :: r1) else none
  | _, _ => none

/-- Shape rule of the 4-D batched `torch.matmul` used by
`ContextBlock2d.spatial_pool`. -/
def matmul4Shape : Shape → Shape → Option Shape
  | [a, b, m, k], [a2, b2, k2, p] =>
    if a = a2 ∧ b = b2 ∧ k = k2 then some [a, b, m, p] else none
  | _, _ => none

/-- Shape rule of `torch.unsqueeze(d)`: insert a dimension of size 1 at
position `d`. -/
def unsqueezeShape : Nat → Shape → Option Shape
  | 0, s => some (1 :: s)
  | _ + 1, [] => none
  | d + 1, a :: s => (unsqueezeShape d s).map (a :: ·)

/-- Shape rule of `nn.PixelShuffle r`: channels divisible by `r²` are
traded for an `r`-fold increase of each spatial dimension. -/
def pixelShuffleShape (r : Nat) : Shape → Option Shape
  | [n, c, h, w] =>
    if 1 ≤ r ∧ r * r ∣ c then some [n, c / (r * r), h * r, w * r] else none
  | _ => none

/-- Shape evaluation of a tensor expression: `none` exactly where the
host framework would raise a shape error.  The `dwt_ll`, `dwt_high` and
`iwt_op` rules are those of the `DWT`/`IWT` operators, see `DWT` and
`IWT` below. -/
def shapeOf : T → Option Shape
  | .input s => some s
  | .conv2d cfg t => (shapeOf t).bind (conv2dShape cfg)
  | .batchNorm2d ch t => (shapeOf t).bind (batchNorm2dShape ch)
  | .layerNorm dims t => (shapeOf t).bind (layerNormShape dims)
  | .prelu t => shapeOf t
  | .relu t => shapeOf t
  | .sigmoid t => shapeOf t
  | .softmaxDim d t =>
    (shapeOf t).bind fun s => if d < s.length then some s else none
  | .cat1 a b => do cat1Shape (← shapeOf a) (← shapeOf b)
  | .add a b => do bcastDims (← shapeOf a) (← shapeOf b)
  | .mul a b => do bcastDims (← shapeOf a) (← shapeOf b)
  | .matmul4 a b => do matmul4Shape (← shapeOf a) (← shapeOf b)
  | .adaptiveAvgPool2d oh ow t =>
    (shapeOf t).bind fun s =>
      match s with
      | [n, c, h, w] =>
        if 1 ≤ h ∧ 1 ≤ w ∧ 1 ≤ oh ∧ 1 ≤ ow then some [n, c, oh, ow] else none
      | _ => none
  | .pixelShuffle r t => (shapeOf t).bind (pixelShuffleShape r)
  | .upsample_like tgt t =>
    (shapeOf tgt).bind fun st =>
      (shapeOf t).bind fun s =>
        match st, s with
        | [_, _, h, w], [n, c, _, _] => some [n, c, h, w]
        | _, _ => none
  | .dwt_ll t =>
    (shapeOf t).bind fun s =>
      match s with
      | [n, c, h, w] => if 2 ∣ h ∧ 2 ∣ w ∧ 2 ≤ h ∧ 2 ≤ w then some [n, c, h / 2, w / 2] else none
      | _ => none
  | .dwt_high t =>
    (shapeOf t).bind fun s =>
      match s with
      | [n, c, h, w] => if 2 ∣ h ∧ 2 ∣ w ∧ 2 ≤ h ∧ 2 ≤ w then some [n, 4 * c, h / 2, w / 2] else none
      | _ => none
  | .iwt_op t =>
    (shapeOf t).bind fun s =>
      match s with
      | [n, c, h, w] => if 4 ∣ c then some [n, c / 4, 2 * h, 2 * w] else none
      | _ => none
  | .view_flat_hw t =>
    (shapeOf t).bind fun s =>
      match s with
      | [n, c, h, w] => some [n, c, h * w]
      | _ => none
  | .view_1_flat_hw t =>
    (shapeOf t).bind fun s =>
      match s with
      | [n, c, h, w] => if c = 1 then some [n, 1, h * w] else none
      | _ => none
  | .unsqueeze d t => (shapeOf t).bind (unsqueezeShape d)
  | .view_c11 t =>
    (shapeOf t).bind fun s =>
      match s with
      | [n, b, c, d] => if b = 1 ∧ d = 1 then some [n, c, 1, 1] else none
      | _ => none

/-- Modelled from the spec: `DWT` (imported by both source files from
`models/utils`, which is absent from the sources).  The spec's glossary
describes it as a "Discrete Wavelet Transform … used here as [a] fixed
downsampling operator".  Its interface is pinned by its call sites in
`modules_4channel.py`: `GCWTResDown.forward` destructures its result as
`xLL, dwt = self.dwt(x)`, feeds `xLL` to a convolution with `in_channels`
input channels and concatenates it with a stride-2 stem, so `xLL` keeps
the channel count and halves each spatial dimension; the module's
`__main__` check feeds `dwt` of a 256-channel input to a 1024-channel
convolution and through `IWT` back to the doubled resolution, so `dwt`
stacks the four wavelet sub-bands (`4c` channels at half resolution),
the standard single-level Haar layout. -/
def DWT (x : T) : T × T := (.dwt_ll x, .dwt_high x)

/-- Modelled from the spec: `IWT` (from the absent `models/utils`), the
"Inverse Wavelet Transform … used here as [a] fixed upsampling operator".
Pinned by its call site in `GCIWTResUp.forward` and the `__main__` check:
a `c`-channel input is mapped to `c / 4` channels at doubled resolution. -/
def IWT (x : T) : T := .iwt_op x

/-! ## `MakeDense` (`modules_4channel.py`, lines 27–37) -/

/-- Sub-modules built by `MakeDense.__init__`: a `kernel_size`
convolution from `in_channels` to `growth_rate` channels with
`(kernel_size - 1) // 2` padding, and a `BatchNorm2d(growth_rate)`. -/
structure MakeDense where
  conv : Conv2dCfg
  norm_ch : Nat
deriving DecidableEq, Repr

def MakeDense.init (in_channels growth_rate kernel_size : Nat) : MakeDense :=
  { conv := ⟨in_channels, growth_rate, kernel_size, 1, (kernel_size - 1) / 2⟩
    norm_ch := growth_rate }

/-- `MakeDense.forward`: `out = relu(conv(x)); out = norm(out);
out = torch.cat((x, out), 1)`. -/
def MakeDense.forward (m : MakeDense) (x : T) : T :=
  .cat1 x (.batchNorm2d m.norm_ch (.relu (.conv2d m.conv x)))

/-! ## `ContextBlock2d` (`modules_4channel.py`, lines 64–140) -/

/-- Constructor arguments retained by `ContextBlock2d.__init__`
(its sub-modules are determined by these). -/
structure ContextBlock2d where
  inplanes : Nat
  planes : Nat
  pool : String
  fusions : List String
  ratio : Nat
deriving DecidableEq, Repr

/-- `ContextBlock2d.__init__` with its three `assert` statements:
`pool` must be `'avg'` or `'att'`, every fusion must be `'channel_add'`
or `'channel_mul'`, and at least one fusion must be given.  A failing
`assert` raises, modelled by `none`. -/
def ContextBlock2d.initChecked (inplanes planes : Nat) (pool : String)
    (fusions : List String) (ratio : Nat) : Option ContextBlock2d :=
  if pool = "avg" ∨ pool = "att" then
    if ∀ f ∈ fusions, f = "channel_add" ∨ f = "channel_mul" then
      if fusions.length > 0 then
        some ⟨inplanes, planes, pool, fusions, ratio⟩
      else none
    else none
  else none

/-- The `conv_mask` sub-module (`Conv2d(inplanes, 1, kernel_size=1)`). -/
def ContextBlock2d.conv_mask (m : ContextBlock2d) : Conv2dCfg :=
  ⟨m.inplanes, 1, 1, 1, 0⟩

/-- The `channel_add_conv` / `channel_mul_conv` pipeline
(`Conv2d(inplanes, planes // ratio, 1)`, `LayerNorm([planes // ratio, 1, 1])`,
`PReLU()`, `Conv2d(planes // ratio, inplanes, 1)`). -/
def ContextBlock2d.channel_conv (m : ContextBlock2d) (c : T) : T :=
  .conv2d ⟨m.planes / m.ratio, m.inplanes, 1, 1, 0⟩
    (.prelu (.layerNorm [m.planes / m.ratio, 1, 1]
      (.conv2d ⟨m.inplanes, m.planes / m.ratio, 1, 1, 0⟩ c)))

/-- `ContextBlock2d.spatial_pool`.  In the `'att'` branch (the
constructor's `'att' in pool` test, which under the `__init__` assert is
exactly `pool == 'att'`): flatten the input to `[N, C, H*W]`, unsqueeze
to `[N, 1, C, H*W]`, softmax the flattened `conv_mask` output over
dimension 2, unsqueeze to `[N, 1, H*W, 1]`, matmul to `[N, 1, C, 1]` and
view as `[N, C, 1, 1]`.  Otherwise: adaptive average pooling to 1×1. -/
def ContextBlock2d.spatial_pool (m : ContextBlock2d) (x : T) : T :=
  if m.pool = "att" then
    .view_c11 (.matmul4 (.unsqueeze 1 (.view_flat_hw x))
      (.unsqueeze 3 (.softmaxDim 2 (.view_1_flat_hw (.conv2d m.conv_mask x)))))
  else
    .adaptiveAvgPool2d 1 1 x

/-- `ContextBlock2d.forward`: the `channel_mul` branch multiplies `x` by
the sigmoid of the channel pipeline applied to the pooled context, the
`channel_add` branch adds the pipeline output; each branch is taken
exactly when the corresponding fusion was configured (the sub-module is
not `None`). -/
def ContextBlock2d.forward (m : ContextBlock2d) (x : T) : T :=
  let context := m.spatial_pool x
  let out1 := if "channel_mul" ∈ m.fusions
    then .mul x (.sigmoid (m.channel_conv context)) else x
  if "channel_add" ∈ m.fusions then .add out1 (m.channel_conv context) else out1

/-- The default construction `ContextBlock2d(inplanes=…, planes=…)` used
everywhere in `model_3channel.py` (defaults `pool='att'`,
`fusions=['channel_add']`, `ratio=4`). -/
def ContextBlock2d.mkDefault (inplanes planes : Nat) : ContextBlock2d :=
  ⟨inplanes, planes, "att", ["channel_add"], 4⟩

/-! ## `SE_net` (`modules_4channel.py`, lines 40–61) -/

/-- Constructor arguments of `SE_net` (sub-modules are determined by
these: `conv_in : in → in`, `conv_mid : in → in // reduction`,
`conv_out : in // reduction → out`, `x_red : in → out`, all 1×1). -/
structure SE_net where
  in_channels : Nat
  out_channels : Nat
  reduction : Nat
  attention : Bool
deriving DecidableEq, Repr

/-- `SE_net.forward`: with attention, gate `x_red(x)` by the sigmoid of
the squeeze-excite pipeline applied to the 1×1 average pool of `x`;
without attention, the identity. -/
def SE_net.forward (m : SE_net) (x : T) : T :=
  if m.attention then
    .mul (.conv2d ⟨m.in_channels, m.out_channels, 1, 1, 0⟩ x)
      (.sigmoid (.conv2d ⟨m.in_channels / m.reduction, m.out_channels, 1, 1, 0⟩
        (.relu (.conv2d ⟨m.in_channels, m.in_channels / m.reduction, 1, 1, 0⟩
          (.relu (.conv2d ⟨m.in_channels, m.in_channels, 1, 1, 0⟩
            (.adaptiveAvgPool2d 1 1 x)))))))
  else x

/-! ## `GCRDB` (`modules_4channel.py`, lines 7–24) -/

/-- Sub-modules of `GCRDB`: the chain of `MakeDense` layers (each takes
`16 = growth_rate` more input channels than the previous), the final 1×1
projection back to `in_channels`, and the attention block
`att_block(inplanes=in_channels, planes=in_channels)` (always
`ContextBlock2d` in `model_3channel.py`). -/
structure GCRDB where
  residual_dense_layers : List MakeDense
  conv_1x1 : Conv2dCfg
  final_att : ContextBlock2d
deriving DecidableEq, Repr

/-- The list of `MakeDense` layers built by the loop in
`GCRDB.__init__`: `_in_channels` starts at `in_channels` and grows by
`growth_rate` per layer. -/
def GCRDB.denseStack : Nat → Nat → Nat → List MakeDense
  | _, 0, _ => []
  | c, n + 1, g => MakeDense.init c g 3 :: GCRDB.denseStack (c + g) n g

def GCRDB.init (in_channels num_dense_layer growth_rate : Nat) : GCRDB :=
  { residual_dense_layers := GCRDB.denseStack in_channels num_dense_layer growth_rate
    conv_1x1 := ⟨in_channels + num_dense_layer * growth_rate, in_channels, 1, 1, 0⟩
    final_att := ContextBlock2d.mkDefault in_channels in_channels }

/-- `nn.Sequential` over the dense layers: apply them in order. -/
def MakeDense.chain : List MakeDense → T → T
  | [], x => x
  | d :: ds, x => MakeDense.chain ds (d.forward x)

/-- `GCRDB.forward`: `out_rdb = residual_dense_layers(x);
out_rdb = conv_1x1(out_rdb); out_rdb = final_att(out_rdb);
out = out_rdb + x`. -/
def GCRDB.forward (m : GCRDB) (x : T) : T :=
  .add (m.final_att.forward (.conv2d m.conv_1x1 (MakeDense.chain m.residual_dense_layers x))) x

/-- `nn.Sequential` over a list of `GCRDB`s (the repeated blocks at the
head of each `layer*` of `AWNet`). -/
def GCRDB.chain : List GCRDB → T → T
  | [], x => x
  | c :: cs, x => GCRDB.chain cs (c.forward x)

/-! ## `GCWTResDown` (`modules_4channel.py`, lines 143–169) -/

/-- Constructor data of `GCWTResDown`: the channel count and whether a
norm layer was supplied (`model_3channel.py` always passes
`norm_layer=None`; the module's own default is `BatchNorm2d`).  The
`att_block` argument is never used by the module (its `self.att` is
commented out), and `conv_down` is built but never applied. -/
structure GCWTResDown where
  in_channels : Nat
  hasNorm : Bool
deriving DecidableEq, Repr

/-- The `stem` of `GCWTResDown`: stride-2 3×3 convolution, (optional
norm,) PReLU, 3×3 convolution, (optional norm,) PReLU. -/
def GCWTResDown.stem (m : GCWTResDown) (x : T) : T :=
  if m.hasNorm then
    .prelu (.batchNorm2d m.in_channels (.conv2d ⟨m.in_channels, m.in_channels, 3, 1, 1⟩
      (.prelu (.batchNorm2d m.in_channels (.conv2d ⟨m.in_channels, m.in_channels, 3, 2, 1⟩ x)))))
  else
    .prelu (.conv2d ⟨m.in_channels, m.in_channels, 3, 1, 1⟩
      (.prelu (.conv2d ⟨m.in_channels, m.in_channels, 3, 2, 1⟩ x)))

/-- `GCWTResDown.forward`: `stem = self.stem(x); xLL, dwt = self.dwt(x);
res = self.conv1x1(xLL); out = torch.cat([stem, res], dim=1);
return out, dwt`. -/
def GCWTResDown.forward (m : GCWTResDown) (x : T) : T × T :=
  (.cat1 (m.stem x) (.conv2d ⟨m.in_channels, m.in_channels, 1, 1, 0⟩ (DWT x).1), (DWT x).2)

/-! ## `GCIWTResUp` (`modules_4channel.py`, lines 172–210) -/

/-- Constructor data of `GCIWTResUp`: channel count and norm flag
(`model_3channel.py` relies on the default `norm_layer=None`).  Derived
sub-modules: `pre_conv_stem : in // 2 → in`, `pre_conv : in → in`,
`post_conv : in // 4 → in // 4`, `last_conv : in // 2 → in // 4`, all
1×1, and the pixel-shuffle stem below. -/
structure GCIWTResUp where
  in_channels : Nat
  hasNorm : Bool
deriving DecidableEq, Repr

/-- The `stem` of `GCIWTResUp`: `PixelShuffle(2)` then two 3×3
convolutions at `in_channels // 4` with PReLU (and norms when a norm
layer is supplied; `model_3channel.py` never supplies one). -/
def GCIWTResUp.stem (m : GCIWTResUp) (x : T) : T :=
  if m.hasNorm then
    .prelu (.batchNorm2d (m.in_channels / 4)
      (.conv2d ⟨m.in_channels / 4, m.in_channels / 4, 3, 1, 1⟩
        (.prelu (.batchNorm2d (m.in_channels / 4)
          (.conv2d ⟨m.in_channels / 4, m.in_channels / 4, 3, 1, 1⟩ (.pixelShuffle 2 x))))))
  else
    .prelu (.conv2d ⟨m.in_channels / 4, m.in_channels / 4, 3, 1, 1⟩
      (.prelu (.conv2d ⟨m.in_channels / 4, m.in_channels / 4, 3, 1, 1⟩ (.pixelShuffle 2 x))))

/-- `GCIWTResUp.forward`: `x = pre_conv_stem(x); stem = self.stem(x);
x_dwt = pre_conv(x_dwt); x_iwt = iwt(x_dwt); x_iwt = post_conv(x_iwt);
out = torch.cat((stem, x_iwt), dim=1); out = last_conv(out)`. -/
def GCIWTResUp.forward (m : GCIWTResUp) (x x_dwt : T) : T :=
  .conv2d ⟨m.in_channels / 2, m.in_channels / 4, 1, 1, 0⟩
    (.cat1 (m.stem (.conv2d ⟨m.in_channels / 2, m.in_channels, 1, 1, 0⟩ x))
      (.conv2d ⟨m.in_channels / 4, m.in_channels / 4, 1, 1, 0⟩
        (IWT (.conv2d ⟨m.in_channels, m.in_channels, 1, 1, 0⟩ x_dwt))))

/-! ## `shortcutblock` (`modules_4channel.py`, lines 213–222) -/

/-- Constructor arguments of `shortcutblock`; both are required
positional parameters of `shortcutblock.__init__` (no defaults).
Sub-modules: `conv1 : in → out`, `conv2 : out → out` (3×3), and
`SE_net(out, out)`. -/
structure shortcutblock where
  in_channels : Nat
  out_channels : Nat
deriving DecidableEq, Repr

/-- A Python-level call to the `shortcutblock` constructor with a list of
positional arguments.  `__init__(self, in_channels, out_channels)` has
exactly two required parameters, so any other arity raises `TypeError`
(`none`). -/
def shortcutblock.call (args : List Nat) : Option shortcutblock :=
  match args with
  | [a, b] => some ⟨a, b⟩
  | _ => none

/-- `shortcutblock.forward`:
`se(relu(conv2(relu(conv1(x)))))`. -/
def shortcutblock.forward (m : shortcutblock) (x : T) : T :=
  SE_net.forward ⟨m.out_channels, m.out_channels, 4, true⟩
    (.relu (.conv2d ⟨m.out_channels, m.out_channels, 3, 1, 1⟩
      (.relu (.conv2d ⟨m.in_channels, m.out_channels, 3, 1, 1⟩ x))))

/-! ## `PSPModule` (`modules_4channel.py`, lines 225–242) -/

/-- Constructor arguments of `PSPModule`: feature channels, output
channels, and the pooling sizes (default `(1, 2, 3, 6)`).  The
`bottleneck` is `Conv2d(features * (len(sizes) + 1), out_features, 1)`. -/
structure PSPModule where
  features : Nat
  out_features : Nat
  sizes : List Nat
deriving DecidableEq, Repr

/-- One stage built by `PSPModule._make_stage`: adaptive average pooling
to `size × size` followed by a 1×1 convolution (bias-free) at `features`
channels. -/
def PSPModule.stage (features size : Nat) (feats : T) : T :=
  .conv2d ⟨features, features, 1, 1, 0⟩ (.adaptiveAvgPool2d size size feats)

/-- `torch.cat(l, dim=1)` on a list, modelled as right-nested binary
concatenation (same shape behaviour).  `torch.cat` on an empty list
raises; the sources only ever concatenate nonempty lists, and the `[]`
case below is never reached. -/
def catList : List T → T
  | [] => .input []
  | [t] => t
  | t :: u :: us => .cat1 t (catList (u :: us))

/-- `PSPModule.forward`: pool the input to every configured size, apply
the stage convolution, bilinearly upsample each back to the input's
`h × w`, concatenate the stage outputs together with the input along the
channel dimension, and take ReLU of the bottleneck convolution. -/
def PSPModule.forward (m : PSPModule) (feats : T) : T :=
  .relu (.conv2d ⟨m.features * (m.sizes.length + 1), m.out_features, 1, 1, 0⟩
    (catList ((m.sizes.map fun s => T.upsample_like feats (PSPModule.stage m.features s feats))
      ++ [feats])))

/-! ## `AWNet` (`model_3channel.py`)

`model_3channel.py` imports its components from `models.modules_3channel`,
a file the repository does not contain; the repository's modules file is
`modules_4channel.py`, whose definitions (above) are what `AWNet` is
read against here.  `nn.Sequential(*_layer_i_dw)` — a run of `GCRDB`s
followed (for layers 1–4) by a `GCWTResDown` — is modelled as the list of
`GCRDB`s plus the separate down block, applied in the same order. -/

/-- The sub-modules of `AWNet`, exactly the attributes set by
`AWNet.__init__`. -/
structure AWNet where
  conv1 : Conv2dCfg
  layer1 : List GCRDB
  down1 : GCWTResDown
  layer2 : List GCRDB
  down2 : GCWTResDown
  layer3 : List GCRDB
  down3 : GCWTResDown
  layer4 : List GCRDB
  down4 : GCWTResDown
  layer5 : List GCRDB
  layer4_up : GCIWTResUp
  layer3_up : GCIWTResUp
  layer2_up : GCIWTResUp
  layer1_up : GCIWTResUp
  sc_x1 : shortcutblock
  sc_x2 : shortcutblock
  sc_x3 : shortcutblock
  sc_x4 : shortcutblock
  scale_5 : Conv2dCfg
  scale_4 : Conv2dCfg
  scale_3 : Conv2dCfg
  scale_2 : Conv2dCfg
  final_conv : Conv2dCfg
  se1 : SE_net
  se2 : SE_net
  se3 : SE_net
  se4 : SE_net
  se5 : SE_net
  enhance : PSPModule
deriving DecidableEq, Repr

/-- The module assembly performed by `AWNet.__init__` for given
shortcut blocks: all channel counts, kernel sizes and defaults are as in
`model_3channel.py` (`GCRDB(c, ContextBlock2d)` with defaults
`num_dense_layer=6, growth_rate=16`; `GCWTResDown(c, ContextBlock2d,
norm_layer=None)`; `GCIWTResUp(c, ContextBlock2d)` with default
`norm_layer=None`; `SE_net(c, c)`; `PSPModule(features=64,
out_features=64, sizes=(1, 2, 3, 6))`). -/
def AWNet.assemble (in_channels out_channels : Nat) (b0 b1 b2 b3 b4 : Nat)
    (sc1 sc2 sc3 sc4 : shortcutblock) : AWNet :=
  { conv1 := ⟨in_channels, 64, 3, 1, 1⟩
    layer1 := List.replicate b0 (GCRDB.init 64 6 16)
    down1 := ⟨64, false⟩
    layer2 := List.replicate b1 (GCRDB.init 128 6 16)
    down2 := ⟨128, false⟩
    layer3 := List.replicate b2 (GCRDB.init 256 6 16)
    down3 := ⟨256, false⟩
    layer4 := List.replicate b3 (GCRDB.init 512 6 16)
    down4 := ⟨512, false⟩
    layer5 := List.replicate b4 (GCRDB.init 1024 6 16)
    layer4_up := ⟨1024, false⟩
    layer3_up := ⟨512, false⟩
    layer2_up := ⟨256, false⟩
    layer1_up := ⟨128, false⟩
    sc_x1 := sc1
    sc_x2 := sc2
    sc_x3 := sc3
    sc_x4 := sc4
    scale_5 := ⟨1024, out_channels, 3, 1, 1⟩
    scale_4 := ⟨512, out_channels, 3, 1, 1⟩
    scale_3 := ⟨256, out_channels, 3, 1, 1⟩
    scale_2 := ⟨128, out_channels, 3, 1, 1⟩
    final_conv := ⟨64, out_channels, 3, 1, 1⟩
    se1 := ⟨64, 64, 4, true⟩
    se2 := ⟨128, 128, 4, true⟩
    se3 := ⟨256, 256, 4, true⟩
    se4 := ⟨512, 512, 4, true⟩
    se5 := ⟨1024, 1024, 4, true⟩
    enhance := ⟨64, 64, [1, 2, 3, 6]⟩ }

/-- `AWNet.__init__(in_channels, out_channels, block=[2,2,2,3,4])`.
In source order: the five `block[i]` indexings (an out-of-range index
raises `IndexError`), then the four shortcut-block constructions
`shortcutblock(64)`, `shortcutblock(128)`, `shortcutblock(256)`,
`shortcutblock(512)` — each a single-positional-argument call of a
two-required-parameter constructor. -/
def AWNet.init (in_channels out_channels : Nat) (block : List Nat) : Option AWNet :=
  (block[0]?).bind fun b0 =>
  (block[1]?).bind fun b1 =>
  (block[2]?).bind fun b2 =>
  (block[3]?).bind fun b3 =>
  (block[4]?).bind fun b4 =>
  (shortcutblock.call [64]).bind fun sc1 =>
  (shortcutblock.call [128]).bind fun sc2 =>
  (shortcutblock.call [256]).bind fun sc3 =>
  (shortcutblock.call [512]).bind fun sc4 =>
  some (AWNet.assemble in_channels out_channels b0 b1 b2 b3 b4 sc1 sc2 sc3 sc4)

/-- `AWNet.forward(x, target=None, teacher_latent=None)`, translated
line by line; `target` and `teacher_latent` appear in the signature and
nowhere in the body. -/
def AWNet.forward (m : AWNet) (x : T) (target teacher_latent : Option T) :
    (T × T × T × T × T) × T :=
  let x1 := T.conv2d m.conv1 x
  let d1 := m.down1.forward (GCRDB.chain m.layer1 (m.se1.forward x1))
  let x2 := d1.1
  let x2_dwt := d1.2
  let d2 := m.down2.forward (GCRDB.chain m.layer2 (m.se2.forward x2))
  let x3 := d2.1
  let x3_dwt := d2.2
  let d3 := m.down3.forward (GCRDB.chain m.layer3 (m.se3.forward x3))
  let x4 := d3.1
  let x4_dwt := d3.2
  let d4 := m.down4.forward (GCRDB.chain m.layer4 (m.se4.forward x4))
  let x5 := d4.1
  let x5_dwt := d4.2
  let x5_latent := GCRDB.chain m.layer5 (m.se5.forward x5)
  let x5_out := T.sigmoid (.conv2d m.scale_5 x5_latent)
  let x4_up := T.add (m.layer4_up.forward x5_latent x5_dwt) (m.sc_x4.forward x4)
  let x4_out := T.sigmoid (.conv2d m.scale_4 x4_up)
  let x3_up := T.add (m.layer3_up.forward x4_up x4_dwt) (m.sc_x3.forward x3)
  let x3_out := T.sigmoid (.conv2d m.scale_3 x3_up)
  let x2_up := T.add (m.layer2_up.forward x3_up x3_dwt) (m.sc_x2.forward x2)
  let x2_out := T.sigmoid (.conv2d m.scale_2 x2_up)
  let x1_up := m.enhance.forward (T.add (m.layer1_up.forward x2_up x2_dwt) (m.sc_x1.forward x1))
  let out := T.sigmoid (.conv2d m.final_conv x1_up)
  ((out, x2_out, x3_out, x4_out, x5_out), x5_latent)

/-- A concrete `AWNet` configuration for evaluating the forward graph:
`in_channels = out_channels = 3`, the default `block = [2,2,2,3,4]`, and
channel-preserving shortcut blocks (`AWNet.__init__`'s own shortcut-block
calls fail — see `AWNet.init` — so a choice must be made; the shape
failures established below occur in the `layer*_up` blocks and do not
depend on it). -/
def AWNet.defaultCfg : AWNet :=
  AWNet.assemble 3 3 2 2 2 3 4 ⟨64, 64⟩ ⟨128, 128⟩ ⟨256, 256⟩ ⟨512, 512⟩

/-! ### The forward pass as a straight-line pipeline

The assignments of `AWNet.forward`, named: `enc_x1` is `x1 = conv1(x)`,
`enc_d1 … enc_d4` are the `(x_{i+1}, x_{i+1}_dwt)` pairs produced by the
four encoder stages, `latent` is `x5_latent`, `up4 … up1` are the decoder
features (`x4_up … x1_up`, with `up1` including the `enhance` module) and
`out5 … out1` the five sigmoid heads (`out1` the finest scale, from
`final_conv`). -/

def AWNet.enc_x1 (m : AWNet) (x : T) : T := .conv2d m.conv1 x

def AWNet.enc_d1 (m : AWNet) (x : T) : T × T :=
  m.down1.forward (GCRDB.chain m.layer1 (m.se1.forward (m.enc_x1 x)))

def AWNet.enc_d2 (m : AWNet) (x : T) : T × T :=
  m.down2.forward (GCRDB.chain m.layer2 (m.se2.forward (m.enc_d1 x).1))

def AWNet.enc_d3 (m : AWNet) (x : T) : T × T :=
  m.down3.forward (GCRDB.chain m.layer3 (m.se3.forward (m.enc_d2 x).1))

def AWNet.enc_d4 (m : AWNet) (x : T) : T × T :=
  m.down4.forward (GCRDB.chain m.layer4 (m.se4.forward (m.enc_d3 x).1))

def AWNet.latent (m : AWNet) (x : T) : T :=
  GCRDB.chain m.layer5 (m.se5.forward (m.enc_d4 x).1)

def AWNet.out5 (m : AWNet) (x : T) : T := .sigmoid (.conv2d m.scale_5 (m.latent x))

def AWNet.up4 (m : AWNet) (x : T) : T :=
  .add (m.layer4_up.forward (m.latent x) (m.enc_d4 x).2) (m.sc_x4.forward (m.enc_d3 x).1)

def AWNet.out4 (m : AWNet) (x : T) : T := .sigmoid (.conv2d m.scale_4 (m.up4 x))

def AWNet.up3 (m : AWNet) (x : T) : T :=
  .add (m.layer3_up.forward (m.up4 x) (m.enc_d3 x).2) (m.sc_x3.forward (m.enc_d2 x).1)

def AWNet.out3 (m : AWNet) (x : T) : T := .sigmoid (.conv2d m.scale_3 (m.up3 x))

def AWNet.up2 (m : AWNet) (x : T) : T :=
  .add (m.layer2_up.forward (m.up3 x) (m.enc_d2 x).2) (m.sc_x2.forward (m.enc_d1 x).1)

def AWNet.out2 (m : AWNet) (x : T) : T := .sigmoid (.conv2d m.scale_2 (m.up2 x))

def AWNet.up1 (m : AWNet) (x : T) : T :=
  m.enhance.forward
    (.add (m.layer1_up.forward (m.up2 x) (m.enc_d1 x).2) (m.sc_x1.forward (m.enc_x1 x)))

def AWNet.out1 (m : AWNet) (x : T) : T := .sigmoid (.conv2d m.final_conv (m.up1 x))

/-- Number of tensor-operator applications in an expression on top of
its inputs: a measure of the computation a forward pass performs. -/
def opCount : T → Nat
  | .input _ => 0
  | .conv2d _ t => opCount t + 1
  | .batchNorm2d _ t => opCount t + 1
  | .layerNorm _ t => opCount t + 1
  | .prelu t => opCount t + 1
  | .relu t => opCount t + 1
  | .sigmoid t => opCount t + 1
  | .softmaxDim _ t => opCount t + 1
  | .cat1 a b => opCount a + opCount b + 1
  | .add a b => opCount a + opCount b + 1
  | .mul a b => opCount a + opCount b + 1
  | .matmul4 a b => opCount a + opCount b + 1
  | .adaptiveAvgPool2d _ _ t => opCount t + 1
  | .pixelShuffle _ t => opCount t + 1
  | .upsample_like tgt t => opCount tgt + opCount t + 1
  | .dwt_ll t => opCount t + 1
  | .dwt_high t => opCount t + 1
  | .iwt_op t => opCount t + 1
  | .view_flat_hw t => opCount t + 1
  | .view_1_flat_hw t => opCount t + 1
  | .unsqueeze _ t => opCount t + 1
  | .view_c11 t => opCount t + 1

/-! ## Shape lemmas for the individual operators -/

theorem convOutDim_k1 {h : Nat} (hh : 1 ≤ h) : convOutDim h 1 1 0 = some h := by
  unfold convOutDim
  rw [if_pos ⟨le_refl 1, by omega⟩]
  congr 1
  omega

theorem convOutDim_k3s1 {h : Nat} (hh : 1 ≤ h) : convOutDim h 3 1 1 = some h := by
  unfold convOutDim
  rw [if_pos ⟨le_refl 1, by omega⟩]
  congr 1
  omega

theorem convOutDim_k3s2 {h : Nat} (hh : 2 ≤ h) (he : 2 ∣ h) :
    convOutDim h 3 2 1 = some (h / 2) := by
  unfold convOutDim
  rw [if_pos ⟨by omega, by omega⟩]
  congr 1
  omega

theorem shapeOf_prelu (t : T) : shapeOf (.prelu t) = shapeOf t := rfl

theorem shapeOf_relu (t : T) : shapeOf (.relu t) = shapeOf t := rfl

theorem shapeOf_sigmoid (t : T) : shapeOf (.sigmoid t) = shapeOf t := rfl

theorem shapeOf_conv_some {t : T} {n c h w : Nat} {cfg : Conv2dCfg} {oh ow : Nat}
    (ht : shapeOf t = some [n, c, h, w]) (hc : c = cfg.in_ch)
    (hoh : convOutDim h cfg.k cfg.s cfg.p = some oh)
    (how : convOutDim w cfg.k cfg.s cfg.p = some ow) :
    shapeOf (.conv2d cfg t) = some [n, cfg.out_ch, oh, ow] := by
  simp [shapeOf, ht, conv2dShape, hc, hoh, how]

theorem shapeOf_conv_mismatch {t : T} {n c h w : Nat} {cfg : Conv2dCfg}
    (ht : shapeOf t = some [n, c, h, w]) (hc : c ≠ cfg.in_ch) :
    shapeOf (.conv2d cfg t) = none := by
  simp [shapeOf, ht, conv2dShape, hc]

theorem shapeOf_conv_none {t : T} (cfg : Conv2dCfg) (ht : shapeOf t = none) :
    shapeOf (.conv2d cfg t) = none := by
  simp [shapeOf, ht]

theorem shapeOf_batchNorm_some {t : T} {n c h w ch : Nat}
    (ht : shapeOf t = some [n, c, h, w]) (hc : c = ch) :
    shapeOf (.batchNorm2d ch t) = some [n, c, h, w] := by
  simp [shapeOf, ht, batchNorm2dShape, hc]

theorem shapeOf_layerNorm_some {t : T} {s : Shape} {dims : List Nat}
    (ht : shapeOf t = some s) (hd : dims <:+ s) :
    shapeOf (.layerNorm dims t) = some s := by
  simp [shapeOf, ht, layerNormShape, hd]

theorem shapeOf_softmax_some {t : T} {s : Shape} {d : Nat}
    (ht : shapeOf t = some s) (hd : d < s.length) :
    shapeOf (.softmaxDim d t) = some s := by
  simp [shapeOf, ht, hd]

theorem shapeOf_cat1_some {a b : T} {n c1 c2 : Nat} {r : List Nat}
    (ha : shapeOf a = some (n :: c1 :: r)) (hb : shapeOf b = some (n :: c2 :: r)) :
    shapeOf (.cat1 a b) = some (n :: (c1 + c2) :: r) := by
  simp [shapeOf, ha, hb, cat1Shape]

theorem shapeOf_cat1_none_left {a b : T} (ha : shapeOf a = none) :
    shapeOf (.cat1 a b) = none := by
  simp [shapeOf, ha]

theorem bcastDims_self (s : Shape) : bcastDims s s = some s := by
  induction s with
  | nil => rfl
  | cons a as_ ih => simp [bcastDims, ih]

theorem bcastDims_c11 (n c h w : Nat) :
    bcastDims [n, c, h, w] [n, c, 1, 1] = some [n, c, h, w] := by
  by_cases h1 : h = 1 <;> by_cases w1 : w = 1 <;> simp [bcastDims, h1, w1]

theorem shapeOf_add_same {a b : T} {s : Shape}
    (ha : shapeOf a = some s) (hb : shapeOf b = some s) :
    shapeOf (.add a b) = some s := by
  simp [shapeOf, ha, hb, bcastDims_self]

theorem shapeOf_add_c11 {a b : T} {n c h w : Nat}
    (ha : shapeOf a = some [n, c, h, w]) (hb : shapeOf b = some [n, c, 1, 1]) :
    shapeOf (.add a b) = some [n, c, h, w] := by
  simp [shapeOf, ha, hb, bcastDims_c11]

theorem shapeOf_add_none_left {a b : T} (ha : shapeOf a = none) :
    shapeOf (.add a b) = none := by
  simp [shapeOf, ha]

theorem shapeOf_mul_c11 {a b : T} {n c h w : Nat}
    (ha : shapeOf a = some [n, c, h, w]) (hb : shapeOf b = some [n, c, 1, 1]) :
    shapeOf (.mul a b) = some [n, c, h, w] := by
  simp [shapeOf, ha, hb, bcastDims_c11]

theorem shapeOf_matmul4_some {a b : T} {x y m k p : Nat}
    (ha : shapeOf a = some [x, y, m, k]) (hb : shapeOf b = some [x, y, k, p]) :
    shapeOf (.matmul4 a b) = some [x, y, m, p] := by
  simp [shapeOf, ha, hb, matmul4Shape]

theorem shapeOf_pool_some {t : T} {n c h w oh ow : Nat}
    (ht : shapeOf t = some [n, c, h, w]) (hh : 1 ≤ h) (hw : 1 ≤ w)
    (hoh : 1 ≤ oh) (how : 1 ≤ ow) :
    shapeOf (.adaptiveAvgPool2d oh ow t) = some [n, c, oh, ow] := by
  simp [shapeOf, ht, hh, hw, hoh, how]

theorem shapeOf_pixelShuffle2_some {t : T} {n c h w : Nat}
    (ht : shapeOf t = some [n, c, h, w]) (hc : 4 ∣ c) :
    shapeOf (.pixelShuffle 2 t) = some [n, c / 4, h * 2, w * 2] := by
  have : (2 : Nat) * 2 ∣ c := by omega
  simp [shapeOf, ht, pixelShuffleShape, this]

theorem shapeOf_pixelShuffle_none {t : T} {r : Nat} (ht : shapeOf t = none) :
    shapeOf (.pixelShuffle r t) = none := by
  simp [shapeOf, ht]

theorem shapeOf_upsample_like_some {tgt t : T} {a b h w n c h2 w2 : Nat}
    (htg : shapeOf tgt = some [a, b, h, w]) (ht : shapeOf t = some [n, c, h2, w2]) :
    shapeOf (.upsample_like tgt t) = some [n, c, h, w] := by
  simp [shapeOf, htg, ht]

theorem shapeOf_upsample_like_none_tgt {tgt t : T} (htg : shapeOf tgt = none) :
    shapeOf (.upsample_like tgt t) = none := by
  simp [shapeOf, htg]

theorem shapeOf_dwt_ll_some {t : T} {n c h w : Nat}
    (ht : shapeOf t = some [n, c, h, w]) (hh : 2 ≤ h) (hw : 2 ≤ w)
    (heh : 2 ∣ h) (hew : 2 ∣ w) :
    shapeOf (.dwt_ll t) = some [n, c, h / 2, w / 2] := by
  simp [shapeOf, ht, heh, hew, hh, hw]

theorem shapeOf_dwt_high_some {t : T} {n c h w : Nat}
    (ht : shapeOf t = some [n, c, h, w]) (hh : 2 ≤ h) (hw : 2 ≤ w)
    (heh : 2 ∣ h) (hew : 2 ∣ w) :
    shapeOf (.dwt_high t) = some [n, 4 * c, h / 2, w / 2] := by
  simp [shapeOf, ht, heh, hew, hh, hw]

theorem shapeOf_iwt_some {t : T} {n c h w : Nat}
    (ht : shapeOf t = some [n, c, h, w]) (hc : 4 ∣ c) :
    shapeOf (.iwt_op t) = some [n, c / 4, 2 * h, 2 * w] := by
  simp [shapeOf, ht, hc]

theorem shapeOf_iwt_none {t : T} (ht : shapeOf t = none) :
    shapeOf (.iwt_op t) = none := by
  simp [shapeOf, ht]

theorem shapeOf_view_flat_hw_some {t : T} {n c h w : Nat}
    (ht : shapeOf t = some [n, c, h, w]) :
    shapeOf (.view_flat_hw t) = some [n, c, h * w] := by
  simp [shapeOf, ht]

theorem shapeOf_view_1_flat_hw_some {t : T} {n h w : Nat}
    (ht : shapeOf t = some [n, 1, h, w]) :
    shapeOf (.view_1_flat_hw t) = some [n, 1, h * w] := by
  simp [shapeOf, ht]

theorem shapeOf_unsqueeze1_some {t : T} {n : Nat} {r : List Nat}
    (ht : shapeOf t = some (n :: r)) :
    shapeOf (.unsqueeze 1 t) = some (n :: 1 :: r) := by
  simp [shapeOf, ht, unsqueezeShape]

theorem shapeOf_unsqueeze3_some {t : T} {a b c : Nat}
    (ht : shapeOf t = some [a, b, c]) :
    shapeOf (.unsqueeze 3 t) = some [a, b, c, 1] := by
  simp [shapeOf, ht, unsqueezeShape]

theorem shapeOf_view_c11_some {t : T} {n c : Nat}
    (ht : shapeOf t = some [n, 1, c, 1]) :
    shapeOf (.view_c11 t) = some [n, c, 1, 1] := by
  simp [shapeOf, ht]

theorem shapeOf_batchNorm_none {t : T} (ch : Nat) (ht : shapeOf t = none) :
    shapeOf (.batchNorm2d ch t) = none := by
  simp [shapeOf, ht]

/-! ## Shape lemmas for the modules -/

/-- `ContextBlock2d` with the default construction used by `AWNet`
(`pool='att'`, `fusions=['channel_add']`) preserves the shape of a 4-D
input whose channels match `inplanes`. -/
theorem ContextBlock2d.default_shape {x : T} {n c h w : Nat}
    (hx : shapeOf x = some [n, c, h, w]) (hh : 1 ≤ h) (hw : 1 ≤ w) :
    shapeOf ((ContextBlock2d.mkDefault c c).forward x) = some [n, c, h, w] := by
  have hmask : shapeOf (T.conv2d ⟨c, 1, 1, 1, 0⟩ x) = some [n, 1, h, w] :=
    shapeOf_conv_some hx rfl (convOutDim_k1 hh) (convOutDim_k1 hw)
  have hview1 : shapeOf (T.view_1_flat_hw (T.conv2d ⟨c, 1, 1, 1, 0⟩ x)) = some [n, 1, h * w] :=
    shapeOf_view_1_flat_hw_some hmask
  have hsoft : shapeOf (T.softmaxDim 2 (T.view_1_flat_hw (T.conv2d ⟨c, 1, 1, 1, 0⟩ x)))
      = some [n, 1, h * w] := shapeOf_softmax_some hview1 (by simp)
  have hun3 : shapeOf (T.unsqueeze 3 (T.softmaxDim 2 (T.view_1_flat_hw (T.conv2d ⟨c, 1, 1, 1, 0⟩ x))))
      = some [n, 1, h * w, 1] := shapeOf_unsqueeze3_some hsoft
  have hflat : shapeOf (T.view_flat_hw x) = some [n, c, h * w] := shapeOf_view_flat_hw_some hx
  have hun1 : shapeOf (T.unsqueeze 1 (T.view_flat_hw x)) = some [n, 1, c, h * w] :=
    shapeOf_unsqueeze1_some hflat
  have hmm : shapeOf (T.matmul4 (T.unsqueeze 1 (T.view_flat_hw x))
      (T.unsqueeze 3 (T.softmaxDim 2 (T.view_1_flat_hw (T.conv2d ⟨c, 1, 1, 1, 0⟩ x)))))
      = some [n, 1, c, 1] := shapeOf_matmul4_some hun1 hun3
  have hctx : shapeOf ((ContextBlock2d.mkDefault c c).spatial_pool x) = some [n, c, 1, 1] := by
    have : (ContextBlock2d.mkDefault c c).spatial_pool x
        = T.view_c11 (T.matmul4 (T.unsqueeze 1 (T.view_flat_hw x))
            (T.unsqueeze 3 (T.softmaxDim 2 (T.view_1_flat_hw (T.conv2d ⟨c, 1, 1, 1, 0⟩ x))))) := rfl
    rw [this]
    exact shapeOf_view_c11_some hmm
  have hc1 : shapeOf (T.conv2d ⟨c, c / 4, 1, 1, 0⟩ ((ContextBlock2d.mkDefault c c).spatial_pool x))
      = some [n, c / 4, 1, 1] :=
    shapeOf_conv_some hctx rfl (convOutDim_k1 (le_refl 1)) (convOutDim_k1 (le_refl 1))
  have hln : shapeOf (T.layerNorm [c / 4, 1, 1]
      (T.conv2d ⟨c, c / 4, 1, 1, 0⟩ ((ContextBlock2d.mkDefault c c).spatial_pool x)))
      = some [n, c / 4, 1, 1] := shapeOf_layerNorm_some hc1 ⟨[n], rfl⟩
  have hterm : shapeOf ((ContextBlock2d.mkDefault c c).channel_conv
      ((ContextBlock2d.mkDefault c c).spatial_pool x)) = some [n, c, 1, 1] := by
    have hpr := (shapeOf_prelu (T.layerNorm [c / 4, 1, 1]
      (T.conv2d ⟨c, c / 4, 1, 1, 0⟩ ((ContextBlock2d.mkDefault c c).spatial_pool x)))).trans hln
    exact shapeOf_conv_some hpr rfl (convOutDim_k1 (le_refl 1)) (convOutDim_k1 (le_refl 1))
  have hfwd : (ContextBlock2d.mkDefault c c).forward x
      = T.add x ((ContextBlock2d.mkDefault c c).channel_conv
          ((ContextBlock2d.mkDefault c c).spatial_pool x)) := rfl
  rw [hfwd]
  exact shapeOf_add_c11 hx hterm

/-- `SE_net` with attention maps a `[n, in, h, w]` input to
`[n, out, h, w]`. -/
theorem SE_net.gate_shape {x : T} {n ci co r h w : Nat}
    (hx : shapeOf x = some [n, ci, h, w]) (hh : 1 ≤ h) (hw : 1 ≤ w) :
    shapeOf (SE_net.forward ⟨ci, co, r, true⟩ x) = some [n, co, h, w] := by
  have hpool : shapeOf (T.adaptiveAvgPool2d 1 1 x) = some [n, ci, 1, 1] :=
    shapeOf_pool_some hx hh hw (le_refl 1) (le_refl 1)
  have h1 : shapeOf (T.conv2d ⟨ci, ci, 1, 1, 0⟩ (T.adaptiveAvgPool2d 1 1 x))
      = some [n, ci, 1, 1] :=
    shapeOf_conv_some hpool rfl (convOutDim_k1 (le_refl 1)) (convOutDim_k1 (le_refl 1))
  have h2 := (shapeOf_relu (T.conv2d ⟨ci, ci, 1, 1, 0⟩ (T.adaptiveAvgPool2d 1 1 x))).trans h1
  have h3 : shapeOf (T.conv2d ⟨ci, ci / r, 1, 1, 0⟩
      (T.relu (T.conv2d ⟨ci, ci, 1, 1, 0⟩ (T.adaptiveAvgPool2d 1 1 x)))) = some [n, ci / r, 1, 1] :=
    shapeOf_conv_some h2 rfl (convOutDim_k1 (le_refl 1)) (convOutDim_k1 (le_refl 1))
  have h4 := (shapeOf_relu (T.conv2d ⟨ci, ci / r, 1, 1, 0⟩
      (T.relu (T.conv2d ⟨ci, ci, 1, 1, 0⟩ (T.adaptiveAvgPool2d 1 1 x))))).trans h3
  have h5 : shapeOf (T.conv2d ⟨ci / r, co, 1, 1, 0⟩ (T.relu (T.conv2d ⟨ci, ci / r, 1, 1, 0⟩
      (T.relu (T.conv2d ⟨ci, ci, 1, 1, 0⟩ (T.adaptiveAvgPool2d 1 1 x)))))) = some [n, co, 1, 1] :=
    shapeOf_conv_some h4 rfl (convOutDim_k1 (le_refl 1)) (convOutDim_k1 (le_refl 1))
  have h6 := (shapeOf_sigmoid (T.conv2d ⟨ci / r, co, 1, 1, 0⟩
      (T.relu (T.conv2d ⟨ci, ci / r, 1, 1, 0⟩
        (T.relu (T.conv2d ⟨ci, ci, 1, 1, 0⟩ (T.adaptiveAvgPool2d 1 1 x))))))).trans h5
  have hred : shapeOf (T.conv2d ⟨ci, co, 1, 1, 0⟩ x) = some [n, co, h, w] :=
    shapeOf_conv_some hx rfl (convOutDim_k1 hh) (convOutDim_k1 hw)
  exact shapeOf_mul_c11 hred h6

/-- `MakeDense` grows the channel count by `growth_rate`. -/
theorem MakeDense.grow_shape {x : T} {n ci g h w : Nat}
    (hx : shapeOf x = some [n, ci, h, w]) (hh : 1 ≤ h) (hw : 1 ≤ w) :
    shapeOf ((MakeDense.init ci g 3).forward x) = some [n, ci + g, h, w] := by
  have hconv : shapeOf (T.conv2d ⟨ci, g, 3, 1, 1⟩ x) = some [n, g, h, w] :=
    shapeOf_conv_some hx rfl (convOutDim_k3s1 hh) (convOutDim_k3s1 hw)
  have hbn : shapeOf (T.batchNorm2d g (T.relu (T.conv2d ⟨ci, g, 3, 1, 1⟩ x)))
      = some [n, g, h, w] :=
    shapeOf_batchNorm_some ((shapeOf_relu (T.conv2d ⟨ci, g, 3, 1, 1⟩ x)).trans hconv) rfl
  exact shapeOf_cat1_some hx hbn

/-- The chain of `MakeDense` layers built by `GCRDB.__init__` grows the
channel count by `growth_rate` per layer. -/
theorem MakeDense.stack_shape {g n h w : Nat} (hh : 1 ≤ h) (hw : 1 ≤ w) :
    ∀ (k ci : Nat) (x : T), shapeOf x = some [n, ci, h, w] →
      shapeOf (MakeDense.chain (GCRDB.denseStack ci k g) x) = some [n, ci + k * g, h, w] := by
  intro k
  induction k with
  | zero =>
    intro ci x hx
    simpa [GCRDB.denseStack, MakeDense.chain] using hx
  | succ k ih =>
    intro ci x hx
    have hx1 : shapeOf ((MakeDense.init ci g 3).forward x) = some [n, ci + g, h, w] :=
      MakeDense.grow_shape hx hh hw
    have hrec := ih (ci + g) ((MakeDense.init ci g 3).forward x) hx1
    have harith : ci + g + k * g = ci + (k + 1) * g := by ring
    rw [harith] at hrec
    simpa [GCRDB.denseStack, MakeDense.chain] using hrec

/-- `GCRDB` preserves the shape of an input whose channel count matches
its configured `in_channels` (the claim C9 statement, hypothesis form). -/
theorem GCRDB.preserve_shape (nd g : Nat) {x : T} {n c h w : Nat}
    (hx : shapeOf x = some [n, c, h, w]) (hh : 1 ≤ h) (hw : 1 ≤ w) :
    shapeOf ((GCRDB.init c nd g).forward x) = some [n, c, h, w] := by
  have hchain := MakeDense.stack_shape (g := g) hh hw nd c x hx
  have hconv : shapeOf (T.conv2d ⟨c + nd * g, c, 1, 1, 0⟩
      (MakeDense.chain (GCRDB.denseStack c nd g) x)) = some [n, c, h, w] :=
    shapeOf_conv_some hchain rfl (convOutDim_k1 hh) (convOutDim_k1 hw)
  have hctx := ContextBlock2d.default_shape hconv hh hw
  exact shapeOf_add_same hctx hx

/-- A run of identically-configured `GCRDB`s preserves shape. -/
theorem GCRDB.run_shape {n c nd g h w : Nat} (hh : 1 ≤ h) (hw : 1 ≤ w) :
    ∀ (k : Nat) (x : T), shapeOf x = some [n, c, h, w] →
      shapeOf (GCRDB.chain (List.replicate k (GCRDB.init c nd g)) x) = some [n, c, h, w] := by
  intro k
  induction k with
  | zero =>
    intro x hx
    simpa [GCRDB.chain] using hx
  | succ k ih =>
    intro x hx
    have h1 := GCRDB.preserve_shape nd g hx hh hw
    simpa [List.replicate_succ, GCRDB.chain] using ih ((GCRDB.init c nd g).forward x) h1

/-- The `GCWTResDown` stem halves both spatial dimensions (with or
without norm layers). -/
theorem GCWTResDown.stem_shape {x : T} {n c h w : Nat} (b : Bool)
    (hx : shapeOf x = some [n, c, h, w]) (hh : 2 ≤ h) (hw : 2 ≤ w)
    (heh : 2 ∣ h) (hew : 2 ∣ w) :
    shapeOf (GCWTResDown.stem ⟨c, b⟩ x) = some [n, c, h / 2, w / 2] := by
  have h1 : shapeOf (T.conv2d ⟨c, c, 3, 2, 1⟩ x) = some [n, c, h / 2, w / 2] :=
    shapeOf_conv_some hx rfl (convOutDim_k3s2 hh heh) (convOutDim_k3s2 hw hew)
  have hh2 : 1 ≤ h / 2 := by omega
  have hw2 : 1 ≤ w / 2 := by omega
  cases b with
  | false =>
    have h2 := (shapeOf_prelu (T.conv2d ⟨c, c, 3, 2, 1⟩ x)).trans h1
    have h3 : shapeOf (T.conv2d ⟨c, c, 3, 1, 1⟩ (T.prelu (T.conv2d ⟨c, c, 3, 2, 1⟩ x)))
        = some [n, c, h / 2, w / 2] :=
      shapeOf_conv_some h2 rfl (convOutDim_k3s1 hh2) (convOutDim_k3s1 hw2)
    exact (shapeOf_prelu (T.conv2d ⟨c, c, 3, 1, 1⟩ (T.prelu (T.conv2d ⟨c, c, 3, 2, 1⟩ x)))).trans h3
  | true =>
    have h1b : shapeOf (T.batchNorm2d c (T.conv2d ⟨c, c, 3, 2, 1⟩ x)) = some [n, c, h / 2, w / 2] :=
      shapeOf_batchNorm_some h1 rfl
    have h2 := (shapeOf_prelu (T.batchNorm2d c (T.conv2d ⟨c, c, 3, 2, 1⟩ x))).trans h1b
    have h3 : shapeOf (T.conv2d ⟨c, c, 3, 1, 1⟩ (T.prelu (T.batchNorm2d c (T.conv2d ⟨c, c, 3, 2, 1⟩ x))))
        = some [n, c, h / 2, w / 2] :=
      shapeOf_conv_some h2 rfl (convOutDim_k3s1 hh2) (convOutDim_k3s1 hw2)
    have h3b := shapeOf_batchNorm_some h3 (rfl (a := c))
    exact (shapeOf_prelu (T.batchNorm2d c (T.conv2d ⟨c, c, 3, 1, 1⟩
      (T.prelu (T.batchNorm2d c (T.conv2d ⟨c, c, 3, 2, 1⟩ x)))))).trans h3b

/-- First output of `GCWTResDown.forward`: the concatenation of the
stride-2 stem with the 1×1-convolved wavelet low-frequency band — double
the channels at half the resolution. -/
theorem GCWTResDown.shape_fst {x : T} {n c h w : Nat} (b : Bool)
    (hx : shapeOf x = some [n, c, h, w]) (hh : 2 ≤ h) (hw : 2 ≤ w)
    (heh : 2 ∣ h) (hew : 2 ∣ w) :
    shapeOf ((GCWTResDown.forward ⟨c, b⟩ x).1) = some [n, c + c, h / 2, w / 2] := by
  have hstem := GCWTResDown.stem_shape b hx hh hw heh hew
  have hll := shapeOf_dwt_ll_some hx hh hw heh hew
  have hres : shapeOf (T.conv2d ⟨c, c, 1, 1, 0⟩ (T.dwt_ll x)) = some [n, c, h / 2, w / 2] :=
    shapeOf_conv_some hll rfl (convOutDim_k1 (by omega)) (convOutDim_k1 (by omega))
  exact shapeOf_cat1_some hstem hres

/-- Second output of `GCWTResDown.forward`: the stacked wavelet
coefficients — four times the channels at half the resolution. -/
theorem GCWTResDown.shape_snd {x : T} {n c h w : Nat} (b : Bool)
    (hx : shapeOf x = some [n, c, h, w]) (hh : 2 ≤ h) (hw : 2 ≤ w)
    (heh : 2 ∣ h) (hew : 2 ∣ w) :
    shapeOf ((GCWTResDown.forward ⟨c, b⟩ x).2) = some [n, 4 * c, h / 2, w / 2] :=
  shapeOf_dwt_high_some hx hh hw heh hew

/-- `GCIWTResUp.forward` (no norm layer, as `AWNet` builds it) doubles
the resolution and quarters `in_channels`, provided the main input
carries `in_channels // 2` channels and the coefficients carry
`in_channels` channels. -/
theorem GCIWTResUp.up_shape {x xd : T} {n ic h w : Nat}
    (hx : shapeOf x = some [n, ic / 2, h, w]) (hxd : shapeOf xd = some [n, ic, h, w])
    (hic : 4 ∣ ic) (hh : 1 ≤ h) (hw : 1 ≤ w) :
    shapeOf (GCIWTResUp.forward ⟨ic, false⟩ x xd) = some [n, ic / 4, 2 * h, 2 * w] := by
  have hpre : shapeOf (T.conv2d ⟨ic / 2, ic, 1, 1, 0⟩ x) = some [n, ic, h, w] :=
    shapeOf_conv_some hx rfl (convOutDim_k1 hh) (convOutDim_k1 hw)
  have hps : shapeOf (T.pixelShuffle 2 (T.conv2d ⟨ic / 2, ic, 1, 1, 0⟩ x))
      = some [n, ic / 4, h * 2, w * 2] := shapeOf_pixelShuffle2_some hpre hic
  have hh2 : 1 ≤ h * 2 := by omega
  have hw2 : 1 ≤ w * 2 := by omega
  have hs1 : shapeOf (T.conv2d ⟨ic / 4, ic / 4, 3, 1, 1⟩
      (T.pixelShuffle 2 (T.conv2d ⟨ic / 2, ic, 1, 1, 0⟩ x))) = some [n, ic / 4, h * 2, w * 2] :=
    shapeOf_conv_some hps rfl (convOutDim_k3s1 hh2) (convOutDim_k3s1 hw2)
  have hs2 := (shapeOf_prelu (T.conv2d ⟨ic / 4, ic / 4, 3, 1, 1⟩
      (T.pixelShuffle 2 (T.conv2d ⟨ic / 2, ic, 1, 1, 0⟩ x)))).trans hs1
  have hs3 : shapeOf (T.conv2d ⟨ic / 4, ic / 4, 3, 1, 1⟩ (T.prelu (T.conv2d ⟨ic / 4, ic / 4, 3, 1, 1⟩
      (T.pixelShuffle 2 (T.conv2d ⟨ic / 2, ic, 1, 1, 0⟩ x))))) = some [n, ic / 4, h * 2, w * 2] :=
    shapeOf_conv_some hs2 rfl (convOutDim_k3s1 hh2) (convOutDim_k3s1 hw2)
  have hstem : shapeOf (GCIWTResUp.stem ⟨ic, false⟩ (T.conv2d ⟨ic / 2, ic, 1, 1, 0⟩ x))
      = some [n, ic / 4, h * 2, w * 2] :=
    (shapeOf_prelu (T.conv2d ⟨ic / 4, ic / 4, 3, 1, 1⟩ (T.prelu (T.conv2d ⟨ic / 4, ic / 4, 3, 1, 1⟩
      (T.pixelShuffle 2 (T.conv2d ⟨ic / 2, ic, 1, 1, 0⟩ x)))))).trans hs3
  have hpc : shapeOf (T.conv2d ⟨ic, ic, 1, 1, 0⟩ xd) = some [n, ic, h, w] :=
    shapeOf_conv_some hxd rfl (convOutDim_k1 hh) (convOutDim_k1 hw)
  have hiwt : shapeOf (T.iwt_op (T.conv2d ⟨ic, ic, 1, 1, 0⟩ xd)) = some [n, ic / 4, 2 * h, 2 * w] :=
    shapeOf_iwt_some hpc hic
  rw [show 2 * h = h * 2 from Nat.mul_comm 2 h, show 2 * w = w * 2 from Nat.mul_comm 2 w] at hiwt
  have hpost : shapeOf (T.conv2d ⟨ic / 4, ic / 4, 1, 1, 0⟩ (T.iwt_op (T.conv2d ⟨ic, ic, 1, 1, 0⟩ xd)))
      = some [n, ic / 4, h * 2, w * 2] :=
    shapeOf_conv_some hiwt rfl (convOutDim_k1 hh2) (convOutDim_k1 hw2)
  have hcat := shapeOf_cat1_some hstem hpost
  have hlast : shapeOf (T.conv2d ⟨ic / 2, ic / 4, 1, 1, 0⟩
      (T.cat1 (GCIWTResUp.stem ⟨ic, false⟩ (T.conv2d ⟨ic / 2, ic, 1, 1, 0⟩ x))
        (T.conv2d ⟨ic / 4, ic / 4, 1, 1, 0⟩ (T.iwt_op (T.conv2d ⟨ic, ic, 1, 1, 0⟩ xd)))))
      = some [n, ic / 4, h * 2, w * 2] :=
    shapeOf_conv_some hcat (by show ic / 4 + ic / 4 = ic / 2; omega) (convOutDim_k1 hh2)
      (convOutDim_k1 hw2)
  rw [show 2 * h = h * 2 from Nat.mul_comm 2 h, show 2 * w = w * 2 from Nat.mul_comm 2 w]
  exact hlast

/-- If `pre_conv_stem` already fails on the main input, the whole
`GCIWTResUp.forward` output has no shape. -/
theorem GCIWTResUp.none_of_pre {x xd : T} {ic : Nat} (b : Bool)
    (hpre : shapeOf (T.conv2d ⟨ic / 2, ic, 1, 1, 0⟩ x) = none) :
    shapeOf (GCIWTResUp.forward ⟨ic, b⟩ x xd) = none := by
  have hps : shapeOf (T.pixelShuffle 2 (T.conv2d ⟨ic / 2, ic, 1, 1, 0⟩ x)) = none :=
    shapeOf_pixelShuffle_none hpre
  have hstem : shapeOf (GCIWTResUp.stem ⟨ic, b⟩ (T.conv2d ⟨ic / 2, ic, 1, 1, 0⟩ x)) = none := by
    cases b with
    | false =>
      have h1 := shapeOf_conv_none (⟨ic / 4, ic / 4, 3, 1, 1⟩) hps
      have h2 := (shapeOf_prelu (T.conv2d ⟨ic / 4, ic / 4, 3, 1, 1⟩
        (T.pixelShuffle 2 (T.conv2d ⟨ic / 2, ic, 1, 1, 0⟩ x)))).trans h1
      have h3 := shapeOf_conv_none (⟨ic / 4, ic / 4, 3, 1, 1⟩) h2
      exact (shapeOf_prelu _).trans h3
    | true =>
      have h1 := shapeOf_conv_none (⟨ic / 4, ic / 4, 3, 1, 1⟩) hps
      have h1b := shapeOf_batchNorm_none (ic / 4) h1
      have h2 := (shapeOf_prelu (T.batchNorm2d (ic / 4) (T.conv2d ⟨ic / 4, ic / 4, 3, 1, 1⟩
        (T.pixelShuffle 2 (T.conv2d ⟨ic / 2, ic, 1, 1, 0⟩ x))))).trans h1b
      have h3 := shapeOf_conv_none (⟨ic / 4, ic / 4, 3, 1, 1⟩) h2
      have h3b := shapeOf_batchNorm_none (ic / 4) h3
      exact (shapeOf_prelu _).trans h3b
  have hcat := shapeOf_cat1_none_left
    (b := T.conv2d ⟨ic / 4, ic / 4, 1, 1, 0⟩ (T.iwt_op (T.conv2d ⟨ic, ic, 1, 1, 0⟩ xd))) hstem
  exact shapeOf_conv_none (⟨ic / 2, ic / 4, 1, 1, 0⟩) hcat

/-- When the main input's channel count differs from `in_channels // 2`,
`GCIWTResUp.forward` hits the channel-mismatch error of `pre_conv_stem`
and the whole output has no shape. -/
theorem GCIWTResUp.up_shape_none {x xd : T} {n cx h w ic : Nat} (b : Bool)
    (hx : shapeOf x = some [n, cx, h, w]) (hc : cx ≠ ic / 2) :
    shapeOf (GCIWTResUp.forward ⟨ic, b⟩ x xd) = none :=
  GCIWTResUp.none_of_pre b (shapeOf_conv_mismatch hx hc)

/-- A shapeless main input propagates through `GCIWTResUp.forward`. -/
theorem GCIWTResUp.up_shape_none_input {x xd : T} {ic : Nat} (b : Bool)
    (hx : shapeOf x = none) :
    shapeOf (GCIWTResUp.forward ⟨ic, b⟩ x xd) = none :=
  GCIWTResUp.none_of_pre b (shapeOf_conv_none _ hx)

/-- `shortcutblock` maps `[n, in, h, w]` to `[n, out, h, w]`. -/
theorem shortcutblock.sc_shape {x : T} {n ci co h w : Nat}
    (hx : shapeOf x = some [n, ci, h, w]) (hh : 1 ≤ h) (hw : 1 ≤ w) :
    shapeOf (shortcutblock.forward ⟨ci, co⟩ x) = some [n, co, h, w] := by
  have h1 : shapeOf (T.conv2d ⟨ci, co, 3, 1, 1⟩ x) = some [n, co, h, w] :=
    shapeOf_conv_some hx rfl (convOutDim_k3s1 hh) (convOutDim_k3s1 hw)
  have h2 := (shapeOf_relu (T.conv2d ⟨ci, co, 3, 1, 1⟩ x)).trans h1
  have h3 : shapeOf (T.conv2d ⟨co, co, 3, 1, 1⟩ (T.relu (T.conv2d ⟨ci, co, 3, 1, 1⟩ x)))
      = some [n, co, h, w] :=
    shapeOf_conv_some h2 rfl (convOutDim_k3s1 hh) (convOutDim_k3s1 hw)
  have h4 := (shapeOf_relu (T.conv2d ⟨co, co, 3, 1, 1⟩
    (T.relu (T.conv2d ⟨ci, co, 3, 1, 1⟩ x)))).trans h3
  exact SE_net.gate_shape h4 hh hw

/-- Concatenating a nonempty list of tensors of identical shape
multiplies the channel count by the list length. -/
theorem catList_shape {n f h w : Nat} :
    ∀ (l : List T), (∀ t ∈ l, shapeOf t = some [n, f, h, w]) → l ≠ [] →
      shapeOf (catList l) = some [n, f * l.length, h, w] := by
  intro l
  induction l with
  | nil => intro _ hne; exact absurd rfl hne
  | cons t rest ih =>
    intro hall _
    cases rest with
    | nil =>
      have ht := hall t (by simp)
      simpa [catList] using ht
    | cons u us =>
      have ht := hall t (by simp)
      have hrest := ih (fun s hs => hall s (by simp [hs])) (by simp)
      have hcat := shapeOf_cat1_some ht hrest
      rw [show f + f * (u :: us).length = f * (t :: u :: us).length from by
        simp [List.length_cons]; ring]
        at hcat
      exact hcat

/-- If the head of the list has no shape, neither has the
concatenation. -/
theorem catList_none_head {a : T} (l : List T) (ha : shapeOf a = none) :
    shapeOf (catList (a :: l)) = none := by
  cases l with
  | nil => simpa [catList] using ha
  | cons u us => exact shapeOf_cat1_none_left ha

/-- `PSPModule.forward` maps `[n, features, h, w]` to
`[n, out_features, h, w]` when every pooling size is positive. -/
theorem PSPModule.agg_shape {feats : T} {n f of h w : Nat} {sizes : List Nat}
    (hx : shapeOf feats = some [n, f, h, w]) (hh : 1 ≤ h) (hw : 1 ≤ w)
    (hs : ∀ s ∈ sizes, 1 ≤ s) :
    shapeOf (PSPModule.forward ⟨f, of, sizes⟩ feats) = some [n, of, h, w] := by
  have hall : ∀ t ∈ (sizes.map fun s => T.upsample_like feats (PSPModule.stage f s feats))
      ++ [feats], shapeOf t = some [n, f, h, w] := by
    intro t ht
    rcases List.mem_append.1 ht with hmap | hfeat
    · rcases List.mem_map.1 hmap with ⟨s, hsin, rfl⟩
      have hpool : shapeOf (T.adaptiveAvgPool2d s s feats) = some [n, f, s, s] :=
        shapeOf_pool_some hx hh hw (hs s hsin) (hs s hsin)
      have hconv : shapeOf (T.conv2d ⟨f, f, 1, 1, 0⟩ (T.adaptiveAvgPool2d s s feats))
          = some [n, f, s, s] :=
        shapeOf_conv_some hpool rfl (convOutDim_k1 (hs s hsin)) (convOutDim_k1 (hs s hsin))
      exact shapeOf_upsample_like_some hx hconv
    · rw [List.mem_singleton.1 hfeat]
      exact hx
  have hne : (sizes.map fun s => T.upsample_like feats (PSPModule.stage f s feats))
      ++ [feats] ≠ [] := by simp
  have hcat := catList_shape _ hall hne
  rw [show ((sizes.map fun s => T.upsample_like feats (PSPModule.stage f s feats))
      ++ [feats]).length = sizes.length + 1 from by simp] at hcat
  have hbot : shapeOf (T.conv2d ⟨f * (sizes.length + 1), of, 1, 1, 0⟩
      (catList ((sizes.map fun s => T.upsample_like feats (PSPModule.stage f s feats))
        ++ [feats]))) = some [n, of, h, w] :=
    shapeOf_conv_some hcat rfl (convOutDim_k1 hh) (convOutDim_k1 hw)
  exact (shapeOf_relu _).trans hbot

/-- A shapeless input propagates through `PSPModule.forward`. -/
theorem PSPModule.agg_shape_none {feats : T} {f of : Nat} {sizes : List Nat}
    (hx : shapeOf feats = none) :
    shapeOf (PSPModule.forward ⟨f, of, sizes⟩ feats) = none := by
  have hcat : shapeOf (catList ((sizes.map fun s =>
      T.upsample_like feats (PSPModule.stage f s feats)) ++ [feats])) = none := by
    cases sizes with
    | nil => simpa [catList] using hx
    | cons s rest =>
      have ha : shapeOf (T.upsample_like feats (PSPModule.stage f s feats)) = none :=
        shapeOf_upsample_like_none_tgt hx
      simpa [List.map_cons, List.cons_append] using
        catList_none_head ((rest.map fun s => T.upsample_like feats (PSPModule.stage f s feats))
          ++ [feats]) ha
  have hbot := shapeOf_conv_none (⟨f * (sizes.length + 1), of, 1, 1, 0⟩) hcat
  exact (shapeOf_relu _).trans hbot

theorem opt_bind_none {α β : Type} (x : Option α) (f : α → Option β)
    (h : ∀ a, f a = none) : x.bind f = none := by
  cases x <;> simp [h]

/-! ## The claims -/

/-- Claim C1: for every input tensor `x` (with the optional auxiliary
arguments left at their defaults), `AWNet.forward` returns a pair whose
first element is the tuple of the five multi-scale outputs — the
full-resolution head (`final_conv` after the last decoder stage and the
`enhance` module) followed by the four coarser-scale heads
(`scale_2 … scale_5` on progressively deeper decoder features) — and
whose second element is the latent tensor `x5_latent`, the feature map
produced by the deepest encoder layer (`layer5` applied to the
`se5`-gated output of the fourth encoder stage). -/
theorem awnet_forward_multiscale_pair (m : AWNet) (x : T) :
    AWNet.forward m x none none
      = ((m.out1 x, m.out2 x, m.out3 x, m.out4 x, m.out5 x), m.latent x)
    ∧ (AWNet.forward m x none none).2
      = GCRDB.chain m.layer5 (m.se5.forward (m.enc_d4 x).1) :=
  ⟨rfl, rfl⟩

/-- Claim C2 (refuted by the code): under the default block
configuration and `in_channels = out_channels = 3`, on an input of
spatial size 16×16 (divisible by 16) the encoder and its latent head do
produce shapes — the latent is `[1, 1024, 1, 1]` and the coarsest output
`[1, 3, 1, 1]` — but the four finer-scale outputs, including the claimed
full-resolution `[1, 3, 16, 16]` one, have no shape at all: the first
decoder stage `layer4_up = GCIWTResUp(1024)` feeds the 1024-channel
latent into `pre_conv_stem = Conv2d(512, 1024)` (and the 2048-channel
`x5_dwt` into `pre_conv = Conv2d(1024, 1024)`), a channel mismatch on
which the host framework raises, so no run of `AWNet.forward` can return
the claimed five decreasing resolutions. -/
theorem awnet_forward_shape_failure_at_decoder :
    shapeOf (AWNet.forward AWNet.defaultCfg (T.input [1, 3, 16, 16]) none none).2
        = some [1, 1024, 1, 1]
    ∧ shapeOf (AWNet.forward AWNet.defaultCfg (T.input [1, 3, 16, 16]) none none).1.2.2.2.2
        = some [1, 3, 1, 1]
    ∧ shapeOf (AWNet.forward AWNet.defaultCfg (T.input [1, 3, 16, 16]) none none).1.1 = none
    ∧ shapeOf (AWNet.forward AWNet.defaultCfg (T.input [1, 3, 16, 16]) none none).1.2.1 = none
    ∧ shapeOf (AWNet.forward AWNet.defaultCfg (T.input [1, 3, 16, 16]) none none).1.2.2.1 = none
    ∧ shapeOf (AWNet.forward AWNet.defaultCfg (T.input [1, 3, 16, 16]) none none).1.2.2.2.1
        = none := by
  have hdec : AWNet.forward AWNet.defaultCfg (T.input [1, 3, 16, 16]) none none
      = ((AWNet.defaultCfg.out1 (T.input [1, 3, 16, 16]),
          AWNet.defaultCfg.out2 (T.input [1, 3, 16, 16]),
          AWNet.defaultCfg.out3 (T.input [1, 3, 16, 16]),
          AWNet.defaultCfg.out4 (T.input [1, 3, 16, 16]),
          AWNet.defaultCfg.out5 (T.input [1, 3, 16, 16])),
         AWNet.defaultCfg.latent (T.input [1, 3, 16, 16])) := rfl
  rw [hdec]
  set M := AWNet.defaultCfg with hM
  set X : T := T.input [1, 3, 16, 16] with hX
  have h1 : shapeOf (M.enc_x1 X) = some [1, 64, 16, 16] := by decide
  have h1a : shapeOf (M.se1.forward (M.enc_x1 X)) = some [1, 64, 16, 16] :=
    SE_net.gate_shape h1 (by omega) (by omega)
  have h1b : shapeOf (GCRDB.chain M.layer1 (M.se1.forward (M.enc_x1 X))) = some [1, 64, 16, 16] :=
    GCRDB.run_shape (by omega) (by omega) 2 _ h1a
  have h2f : shapeOf (M.enc_d1 X).1 = some [1, 128, 8, 8] :=
    GCWTResDown.shape_fst false h1b (by omega) (by omega) (by omega) (by omega)
  have h2a : shapeOf (M.se2.forward (M.enc_d1 X).1) = some [1, 128, 8, 8] :=
    SE_net.gate_shape h2f (by omega) (by omega)
  have h2b : shapeOf (GCRDB.chain M.layer2 (M.se2.forward (M.enc_d1 X).1)) = some [1, 128, 8, 8] :=
    GCRDB.run_shape (by omega) (by omega) 2 _ h2a
  have h3f : shapeOf (M.enc_d2 X).1 = some [1, 256, 4, 4] :=
    GCWTResDown.shape_fst false h2b (by omega) (by omega) (by omega) (by omega)
  have h3a : shapeOf (M.se3.forward (M.enc_d2 X).1) = some [1, 256, 4, 4] :=
    SE_net.gate_shape h3f (by omega) (by omega)
  have h3b : shapeOf (GCRDB.chain M.layer3 (M.se3.forward (M.enc_d2 X).1)) = some [1, 256, 4, 4] :=
    GCRDB.run_shape (by omega) (by omega) 2 _ h3a
  have h4f : shapeOf (M.enc_d3 X).1 = some [1, 512, 2, 2] :=
    GCWTResDown.shape_fst false h3b (by omega) (by omega) (by omega) (by omega)
  have h4a : shapeOf (M.se4.forward (M.enc_d3 X).1) = some [1, 512, 2, 2] :=
    SE_net.gate_shape h4f (by omega) (by omega)
  have h4b : shapeOf (GCRDB.chain M.layer4 (M.se4.forward (M.enc_d3 X).1)) = some [1, 512, 2, 2] :=
    GCRDB.run_shape (by omega) (by omega) 3 _ h4a
  have h5f : shapeOf (M.enc_d4 X).1 = some [1, 1024, 1, 1] :=
    GCWTResDown.shape_fst false h4b (by omega) (by omega) (by omega) (by omega)
  have h5a : shapeOf (M.se5.forward (M.enc_d4 X).1) = some [1, 1024, 1, 1] :=
    SE_net.gate_shape h5f (by omega) (by omega)
  have hlat : shapeOf (M.latent X) = some [1, 1024, 1, 1] :=
    GCRDB.run_shape (by omega) (by omega) 4 _ h5a
  have hout5 : shapeOf (M.out5 X) = some [1, 3, 1, 1] := by
    have hc : shapeOf (T.conv2d ⟨1024, 3, 3, 1, 1⟩ (M.latent X)) = some [1, 3, 1, 1] :=
      shapeOf_conv_some hlat rfl (convOutDim_k3s1 (by omega)) (convOutDim_k3s1 (by omega))
    exact (shapeOf_sigmoid _).trans hc
  have hup4n : shapeOf (M.layer4_up.forward (M.latent X) (M.enc_d4 X).2) = none :=
    GCIWTResUp.up_shape_none false hlat (by omega)
  have hup4 : shapeOf (M.up4 X) = none := shapeOf_add_none_left hup4n
  have hout4 : shapeOf (M.out4 X) = none :=
    (shapeOf_sigmoid _).trans (shapeOf_conv_none _ hup4)
  have hup3 : shapeOf (M.up3 X) = none :=
    shapeOf_add_none_left (GCIWTResUp.up_shape_none_input false hup4)
  have hout3 : shapeOf (M.out3 X) = none :=
    (shapeOf_sigmoid _).trans (shapeOf_conv_none _ hup3)
  have hup2 : shapeOf (M.up2 X) = none :=
    shapeOf_add_none_left (GCIWTResUp.up_shape_none_input false hup3)
  have hout2 : shapeOf (M.out2 X) = none :=
    (shapeOf_sigmoid _).trans (shapeOf_conv_none _ hup2)
  have hup1 : shapeOf (M.up1 X) = none :=
    PSPModule.agg_shape_none (shapeOf_add_none_left (GCIWTResUp.up_shape_none_input false hup2))
  have hout1 : shapeOf (M.out1 X) = none :=
    (shapeOf_sigmoid _).trans (shapeOf_conv_none _ hup1)
  exact ⟨hlat, hout5, hout1, hout2, hout3, hout4⟩

/-- Claim C3, counterexample: `ContextBlock2d.__init__` does reject a
combination of its own arguments — `pool` set to `max` fails the first
`assert`, an original validation error, refuting "no constructor rejects
any combination of its own arguments". -/
theorem contextblock_init_rejects_invalid_pool :
    ContextBlock2d.initChecked 9 32 "max" ["channel_add"] 4 = none := by decide

/-- Claim C3, amended: no constructor in the sources performs original
validation except `ContextBlock2d.__init__`, whose three `assert`
statements accept exactly those arguments where `pool` is `avg` or
`att`, every fusion is `channel_add` or `channel_mul`, and at least one
fusion is given (all other constructors, embedded as the total functions
`MakeDense.init`, `GCRDB.init`, `AWNet.assemble`, …, accept every
combination of their arguments). -/
theorem contextblock_init_validation_characterization
    (ip pl ratio : Nat) (pool : String) (fusions : List String) :
    (ContextBlock2d.initChecked ip pl pool fusions ratio).isSome = true
      ↔ ((pool = "avg" ∨ pool = "att")
          ∧ (∀ f ∈ fusions, f = "channel_add" ∨ f = "channel_mul")
          ∧ fusions ≠ []) := by
  unfold ContextBlock2d.initChecked
  split_ifs with h1 h2 h3 <;>
    simp_all [List.length_pos, List.isEmpty_iff]

/-- Claim C4: constructing `AWNet` fails for every choice of
`in_channels`, `out_channels` and `block`, because `AWNet.__init__`
calls `shortcutblock` with a single argument while
`shortcutblock.__init__` requires both `in_channels` and `out_channels`
(a two-argument call succeeds, a one-argument call raises); no `AWNet`
instance can be built. -/
theorem awnet_init_always_fails (in_channels out_channels : Nat) (block : List Nat) :
    AWNet.init in_channels out_channels block = none
    ∧ (∀ a b : Nat, shortcutblock.call [a, b] = some ⟨a, b⟩)
    ∧ (∀ a : Nat, shortcutblock.call [a] = none) := by
  refine ⟨?_, fun a b => rfl, fun a => rfl⟩
  unfold AWNet.init
  apply opt_bind_none; intro b0
  apply opt_bind_none; intro b1
  apply opt_bind_none; intro b2
  apply opt_bind_none; intro b3
  apply opt_bind_none; intro b4
  rfl

/-- Claim C5: the wavelet transforms are used as fixed
downsampling/upsampling operators.  `GCWTResDown.forward` applies `DWT`
to its input and returns the pair (concatenation of the
strided-convolution stem with a 1×1 convolution of the low-frequency
band, the wavelet coefficients); `GCIWTResUp.forward` applies `IWT` to
the (1×1-convolved) supplied wavelet coefficients and fuses the result,
by concatenation and a final 1×1 convolution, with the
pixel-shuffle-upsampled main path.  Shape-wise, the down block halves
and the up block doubles both spatial dimensions. -/
theorem wavelet_down_up_operators (md : GCWTResDown) (mu : GCIWTResUp) (x xd yu yd z : T)
    (b : Bool) (n c h w n2 ic h2 w2 : Nat)
    (hz : shapeOf z = some [n, c, h, w]) (hh : 2 ≤ h) (hw : 2 ≤ w)
    (heh : 2 ∣ h) (hew : 2 ∣ w)
    (hyu : shapeOf yu = some [n2, ic / 2, h2, w2]) (hyd : shapeOf yd = some [n2, ic, h2, w2])
    (hic : 4 ∣ ic) (hh2 : 1 ≤ h2) (hw2 : 1 ≤ w2) :
    (GCWTResDown.forward md x
      = (T.cat1 (md.stem x) (T.conv2d ⟨md.in_channels, md.in_channels, 1, 1, 0⟩ (DWT x).1),
         (DWT x).2))
    ∧ (GCIWTResUp.forward mu x xd
      = T.conv2d ⟨mu.in_channels / 2, mu.in_channels / 4, 1, 1, 0⟩
          (T.cat1 (mu.stem (T.conv2d ⟨mu.in_channels / 2, mu.in_channels, 1, 1, 0⟩ x))
            (T.conv2d ⟨mu.in_channels / 4, mu.in_channels / 4, 1, 1, 0⟩
              (IWT (T.conv2d ⟨mu.in_channels, mu.in_channels, 1, 1, 0⟩ xd)))))
    ∧ shapeOf ((GCWTResDown.forward ⟨c, b⟩ z).1) = some [n, c + c, h / 2, w / 2]
    ∧ shapeOf ((GCWTResDown.forward ⟨c, b⟩ z).2) = some [n, 4 * c, h / 2, w / 2]
    ∧ shapeOf (GCIWTResUp.forward ⟨ic, false⟩ yu yd) = some [n2, ic / 4, 2 * h2, 2 * w2] :=
  ⟨rfl, rfl,
   GCWTResDown.shape_fst b hz hh hw heh hew,
   GCWTResDown.shape_snd b hz hh hw heh hew,
   GCIWTResUp.up_shape hyu hyd hic hh2 hw2⟩

/-- Witness for C5, at the concrete sizes of the module file: a
256-channel 112×112 input is downsampled to `[1, 512, 56, 56]` with
coefficients `[1, 1024, 56, 56]`, and those are upsampled by
`GCIWTResUp(1024)` back to `[1, 256, 112, 112]`. -/
theorem wavelet_down_up_operators_witness :
    (shapeOf (T.input [1, 256, 112, 112]) = some [1, 256, 112, 112]
      ∧ (2 ≤ 112 ∧ 2 ∣ 112) ∧ (4 ∣ 1024 ∧ 1 ≤ 56)
      ∧ shapeOf (T.input [1, 512, 56, 56]) = some [1, 512, 56, 56]
      ∧ shapeOf (T.input [1, 1024, 56, 56]) = some [1, 1024, 56, 56])
    ∧ shapeOf ((GCWTResDown.forward ⟨256, true⟩ (T.input [1, 256, 112, 112])).1)
        = some [1, 256 + 256, 112 / 2, 112 / 2]
    ∧ shapeOf ((GCWTResDown.forward ⟨256, true⟩ (T.input [1, 256, 112, 112])).2)
        = some [1, 4 * 256, 112 / 2, 112 / 2]
    ∧ shapeOf (GCIWTResUp.forward ⟨1024, false⟩ (T.input [1, 512, 56, 56])
        (T.input [1, 1024, 56, 56])) = some [1, 1024 / 4, 2 * 56, 2 * 56] := by
  have h := wavelet_down_up_operators ⟨256, true⟩ ⟨1024, false⟩
    (T.input [1, 256, 112, 112]) (T.input [1, 256, 112, 112])
    (T.input [1, 512, 56, 56]) (T.input [1, 1024, 56, 56]) (T.input [1, 256, 112, 112])
    true 1 256 112 112 1 1024 56 56
    (by decide) (by decide) (by decide) (by decide) (by decide)
    (by decide) (by decide) (by decide) (by decide) (by decide)
  exact ⟨⟨by decide, ⟨by decide, by decide⟩, ⟨by decide, by decide⟩, by decide, by decide⟩,
    h.2.2.1, h.2.2.2.1, h.2.2.2.2⟩

/-- Claim C6: `GCRDB.forward` passes `x` through the chain of dense
layers (each concatenating its own convolution output onto its input),
then the 1×1 convolution, then the context-attention block, and adds the
gated result back to the original input `x`. -/
theorem gcrdb_dense_then_attention_residual (m : GCRDB) (x : T) :
    m.forward x
      = T.add (m.final_att.forward
          (T.conv2d m.conv_1x1 (MakeDense.chain m.residual_dense_layers x))) x
    ∧ (∀ (d : MakeDense) (y : T),
        d.forward y = T.cat1 y (T.batchNorm2d d.norm_ch (T.relu (T.conv2d d.conv y)))) :=
  ⟨rfl, fun _ _ => rfl⟩

/-- Claim C7: `PSPModule.forward` adaptively average-pools the input to
each configured size, applies a 1×1 convolution to each pooled map,
bilinearly upsamples each back to the input resolution, concatenates
the `len(sizes)` maps together with the original input along the
channel dimension, and returns the ReLU of the 1×1 bottleneck
convolution; shape-wise it maps `[n, features, h, w]` to
`[n, out_features, h, w]`. -/
theorem psp_multiscale_aggregation (m : PSPModule) (feats : T) (n h w : Nat)
    (hx : shapeOf feats = some [n, m.features, h, w]) (hh : 1 ≤ h) (hw : 1 ≤ w)
    (hs : ∀ s ∈ m.sizes, 1 ≤ s) :
    m.forward feats
      = T.relu (T.conv2d ⟨m.features * (m.sizes.length + 1), m.out_features, 1, 1, 0⟩
          (catList ((m.sizes.map fun s => T.upsample_like feats
            (T.conv2d ⟨m.features, m.features, 1, 1, 0⟩ (T.adaptiveAvgPool2d s s feats)))
            ++ [feats])))
    ∧ shapeOf (m.forward feats) = some [n, m.out_features, h, w] := by
  refine ⟨rfl, ?_⟩
  cases m
  exact PSPModule.agg_shape hx hh hw hs

/-- Witness for C7 at the default configuration
`PSPModule(features=64, out_features=64, sizes=(1, 2, 3, 6))` on a
`[1, 64, 8, 8]` input. -/
theorem psp_multiscale_aggregation_witness :
    (shapeOf (T.input [1, 64, 8, 8]) = some [1, 64, 8, 8]
      ∧ (1 ≤ 8) ∧ (∀ s ∈ [1, 2, 3, 6], 1 ≤ s))
    ∧ shapeOf (PSPModule.forward ⟨64, 64, [1, 2, 3, 6]⟩ (T.input [1, 64, 8, 8]))
        = some [1, 64, 8, 8] := by
  have h := psp_multiscale_aggregation ⟨64, 64, [1, 2, 3, 6]⟩ (T.input [1, 64, 8, 8]) 1 8 8
    (by decide) (by decide) (by decide) (by decide)
  exact ⟨⟨by decide, by decide, by decide⟩, h.2⟩

/-- Claim C8: the outputs of `AWNet.forward` are independent of the
optional auxiliary arguments — `target` and `teacher_latent` appear in
the signature but are never read in the body, so any two choices give
identical results. -/
theorem awnet_forward_ignores_auxiliary_arguments
    (m : AWNet) (x : T) (t1 l1 t2 l2 : Option T) :
    AWNet.forward m x t1 l1 = AWNet.forward m x t2 l2 := rfl

/-- Claim C9: `GCRDB` preserves tensor shape — for an input whose
channel count equals the configured `in_channels`, the output has
exactly the input shape; the dense layers grow the channel count by
`growth_rate` per layer and the 1×1 convolution projects back to
`in_channels`, making the residual addition well-formed. -/
theorem gcrdb_preserves_shape (nd g n c h w : Nat) (x : T)
    (hx : shapeOf x = some [n, c, h, w]) (hh : 1 ≤ h) (hw : 1 ≤ w) :
    shapeOf ((GCRDB.init c nd g).forward x) = some [n, c, h, w]
    ∧ shapeOf (MakeDense.chain (GCRDB.denseStack c nd g) x) = some [n, c + nd * g, h, w] :=
  ⟨GCRDB.preserve_shape nd g hx hh hw, MakeDense.stack_shape hh hw nd c x hx⟩

/-- Witness for C9 at the default `GCRDB(64)` (`num_dense_layer=6`,
`growth_rate=16`) on a `[1, 64, 2, 2]` input: the output keeps the
shape and the dense chain reaches `64 + 6·16 = 160` channels. -/
theorem gcrdb_preserves_shape_witness :
    (shapeOf (T.input [1, 64, 2, 2]) = some [1, 64, 2, 2] ∧ (1 : Nat) ≤ 2)
    ∧ shapeOf ((GCRDB.init 64 6 16).forward (T.input [1, 64, 2, 2])) = some [1, 64, 2, 2]
    ∧ shapeOf (MakeDense.chain (GCRDB.denseStack 64 6 16) (T.input [1, 64, 2, 2]))
        = some [1, 64 + 6 * 16, 2, 2] := by
  have h := gcrdb_preserves_shape 6 16 1 64 2 2 (T.input [1, 64, 2, 2])
    (by decide) (by decide) (by decide)
  exact ⟨⟨by decide, by decide⟩, h.1, h.2⟩

/-- Claim C10: every forward pass is a finite, loop-free, acyclic
composition of tensor operators and terminates for every input.
`AWNet.forward` equals, for every configuration, input and auxiliary
arguments, the fixed straight-line pipeline of module applications; and
each module forward adds an input-independent, fixed, finite number of
operator applications (the constants below, at the configurations
`AWNet` instantiates).  All forwards are total structurally-recursive
functions of the embedding, so evaluation terminates on every input. -/
theorem awnet_forward_straight_line :
    (∀ (m : AWNet) (x : T) (t tl : Option T),
      AWNet.forward m x t tl
        = ((m.out1 x, m.out2 x, m.out3 x, m.out4 x, m.out5 x), m.latent x))
    ∧ (∀ (md : MakeDense) (y : T), opCount (md.forward y) = 2 * opCount y + 4)
    ∧ (∀ (p q : Nat) (y : T),
        opCount ((ContextBlock2d.mkDefault p q).forward y) = 3 * opCount y + 13)
    ∧ (∀ (a b r : Nat) (y : T), opCount (SE_net.forward ⟨a, b, r, true⟩ y) = 2 * opCount y + 9)
    ∧ (∀ (c : Nat) (y : T), opCount ((GCRDB.init c 6 16).forward y) = 193 * opCount y + 773)
    ∧ (∀ (c : Nat) (y : T),
        opCount ((GCWTResDown.forward ⟨c, false⟩ y).1) = 2 * opCount y + 7
        ∧ opCount ((GCWTResDown.forward ⟨c, false⟩ y).2) = opCount y + 1)
    ∧ (∀ (c : Nat) (y yd : T),
        opCount (GCIWTResUp.forward ⟨c, false⟩ y yd) = opCount y + opCount yd + 11)
    ∧ (∀ (a b : Nat) (y : T), opCount (shortcutblock.forward ⟨a, b⟩ y) = 2 * opCount y + 17)
    ∧ (∀ (f g : Nat) (y : T),
        opCount (PSPModule.forward ⟨f, g, [1, 2, 3, 6]⟩ y) = 9 * opCount y + 18) := by
  refine ⟨fun m x t tl => rfl, fun md y => ?_, fun p q y => ?_, fun a b r y => ?_,
    fun c y => ?_, fun c y => ⟨?_, ?_⟩, fun c y yd => ?_, fun a b y => ?_, fun f g y => ?_⟩
  · simp [MakeDense.forward, opCount]; ring
  · simp [ContextBlock2d.forward, ContextBlock2d.mkDefault, ContextBlock2d.spatial_pool,
      ContextBlock2d.channel_conv, ContextBlock2d.conv_mask, opCount]
    ring
  · simp [SE_net.forward, opCount]; ring
  · simp [GCRDB.forward, GCRDB.init, GCRDB.denseStack, MakeDense.chain, MakeDense.forward,
      MakeDense.init, ContextBlock2d.forward, ContextBlock2d.mkDefault,
      ContextBlock2d.spatial_pool, ContextBlock2d.channel_conv, ContextBlock2d.conv_mask, opCount]
    ring
  · simp [GCWTResDown.forward, GCWTResDown.stem, DWT, opCount]; ring
  · simp [GCWTResDown.forward, DWT, opCount]
  · simp [GCIWTResUp.forward, GCIWTResUp.stem, IWT, opCount]; ring
  · simp [shortcutblock.forward, SE_net.forward, opCount]; ring
  · simp [PSPModule.forward, PSPModule.stage, catList, opCount]; ring

end AWNetISP
